import Mathlib

/-!
Verification development for the web-pilot browser-automation extension.

The development shallowly embeds the parts of the code base that the
checked properties are about:

* `src/pages/content/src/view.ts` — the DOM model and the serializer
  (`DOMElementNode.clickableElementsToString`,
  `DOMElementNode.getAllTextTillNextClickableElement`,
  `DOMTextNode.hasParentWithHighlightIndex`);
* `src/pages/content/src/index.ts` — `getXPaths`, `findElement`,
  `executeClickElement`, `executeScroll`;
* the action catalog and `parseAction` (zod-validated action parsing);
* `src/pages/side-panel/src/services/chatService.ts` —
  `getChatResponseInternal` / `getChatResponse`, the bounded-round agent
  loop.

JavaScript strings are `String`, JS `null`/`undefined`-able fields are
`Option`, thrown exceptions become explicit error results, and the
browser surfaces that the code only calls into (completion API, tab
management, live DOM queries) are environment records of pure functions.
-/

/-! ## DOM model (`view.ts`)

`DOMBaseNode` / `DOMTextNode` / `DOMElementNode` become one mutual
inductive: a node is either a text node or an element node owning an
ordered list of children.  The mutual list type keeps every function
below structurally recursive.  The parent back-reference of the source
is not stored; instead every traversal threads the data the source
reads through parent pointers (the chain of ancestor highlight indices
/ interactivity flags), which for a tree is exactly what the upward
walk of `hasParentWithHighlightIndex` sees. -/

mutual
inductive DOMNode where
  | textNode (text : String) (isVisible : Bool)
  | elementNode (tagName : String) (attributes : List (String × String))
      (isVisible : Bool) (isInteractive : Bool) (isTopElement : Bool)
      (highlightIndex : Option Nat) (children : DOMNodeList)
inductive DOMNodeList where
  | nil
  | cons (head : DOMNode) (tail : DOMNodeList)
end

/-- JS `String.prototype.trim`, written over the character list so
that it evaluates by kernel reduction (the built-in `String.trim` does
not). -/
def jsTrim (s : String) : String :=
  ⟨((s.data.dropWhile Char.isWhitespace).reverse.dropWhile Char.isWhitespace).reverse⟩

/-- `DOMTextNode.hasParentWithHighlightIndex`: walk the parent chain and
report whether any ancestor element carries a highlight index.  The
ancestor chain is passed explicitly as the list of ancestor highlight
indices, innermost first. -/
def hasParentWithHighlightIndex (ancestorHighlights : List (Option Nat)) : Bool :=
  ancestorHighlights.any Option.isSome

mutual
/-- The `collectText` closure inside
`DOMElementNode.getAllTextTillNextClickableElement`, as it runs on the
nodes strictly below the element the method was called on (the root
call always passes its own-node check and descends into the children).
`maxDepth`/`depth` mirror the source's depth guard; the serializer only
ever calls the method with the default `maxDepth = -1`. -/
def collectText (maxDepth : Int) (depth : Int) : DOMNode → List String
  | .textNode text isVisible =>
    if maxDepth ≥ 0 ∧ depth > maxDepth then []
    else if isVisible then
      (if jsTrim text = "" then [] else [jsTrim text])
    else []
  | .elementNode _ _ _ _ _ highlightIndex children =>
    if maxDepth ≥ 0 ∧ depth > maxDepth then []
    else if highlightIndex.isSome then []  -- stop at the next clickable element
    else collectTextList maxDepth (depth + 1) children

/-- Folds `collectText` over a child list in document order. -/
def collectTextList (maxDepth : Int) (depth : Int) : DOMNodeList → List String
  | .nil => []
  | .cons n ns => collectText maxDepth depth n ++ collectTextList maxDepth depth ns
end

/-- `DOMElementNode.getAllTextTillNextClickableElement(maxDepth = -1)`:
the root call on `this` never triggers the clickable-element stop, so
the collection effectively starts from the element's children at depth
1; the collected trimmed parts are joined with single spaces. -/
def getAllTextTillNextClickableElement (maxDepth : Int) (children : DOMNodeList) : String :=
  String.intercalate " " (collectTextList maxDepth 1 children)

/-- The attribute string of a serialized element line: empty when
`includeAttributes` is empty, otherwise a single leading space followed
by the space-joined `key="value"` fragments of the requested attributes
that are present with a truthy (non-empty) value. -/
def attributesString (includeAttributes : List String) (attributes : List (String × String)) : String :=
  if includeAttributes.isEmpty then ""
  else
    " " ++ String.intercalate " "
      ((includeAttributes.map (fun key =>
          match attributes.lookup key with
          | some v => if v = "" then "" else key ++ "=\"" ++ v ++ "\""
          | none => "")).filter (fun s => ¬ s = ""))

mutual
/-- The `processNode` closure inside
`DOMElementNode.clickableElementsToString`: pre-order over the tree,
emitting `[i]<tag ...>text</tag>` for every element that has a highlight
index and is interactive and visible (even when the text is empty), and
`[]text` for every visible text node with non-blank trimmed text and no
ancestor carrying a highlight index.  `ancestorHighlights` is the chain
of highlight indices of the ancestors of the current node (the source
reads it through parent pointers). -/
def processNode (includeAttributes : List String) (ancestorHighlights : List (Option Nat)) :
    DOMNode → List String
  | .elementNode tagName attributes isVisible isInteractive _ highlightIndex children =>
    (match highlightIndex, isInteractive, isVisible with
     | some i, true, true =>
       ["[" ++ toString i ++ "]<" ++ tagName ++ attributesString includeAttributes attributes
         ++ ">" ++ jsTrim (getAllTextTillNextClickableElement (-1) children)
         ++ "</" ++ tagName ++ ">"]
     | _, _, _ => [])
    ++ processList includeAttributes (highlightIndex :: ancestorHighlights) children
  | .textNode text isVisible =>
    if ¬ hasParentWithHighlightIndex ancestorHighlights ∧ isVisible ∧ ¬ jsTrim text = "" then
      ["[]" ++ jsTrim text]
    else []

/-- Folds `processNode` over a child list in document order. -/
def processList (includeAttributes : List String) (ancestorHighlights : List (Option Nat)) :
    DOMNodeList → List String
  | .nil => []
  | .cons n ns =>
    processNode includeAttributes ancestorHighlights n
      ++ processList includeAttributes ancestorHighlights ns
end

/-- `DOMElementNode.clickableElementsToString(includeAttributes = [])`,
called on the converted page root (whose parent chain is empty): the
newline-joined emitted lines. -/
def clickableElementsToString (includeAttributes : List String) (root : DOMNode) : String :=
  String.intercalate "\n" (processNode includeAttributes [] root)

/-! ### Specification-side rendering (for the serializer claims)

Written from the spec's wording rather than from the source: the tree
is first flattened into the document-order list of nodes, each paired
with the list of its proper ancestors' `(highlightIndex, isInteractive)`
data; then each flattened entry is rendered by a local rule.  The
element rule emits `[index]<tag attrs>innerText</tag>` where the inner
text is the visible descendant text, trimmed and joined by spaces,
truncated at every descendant element that itself carries a highlight
index; the text rule emits `[]text` exactly for visible, non-blank text
nodes with no ancestor carrying a highlight index. -/

/-- Ancestor data recorded along a path: highlight index and
interactivity flag of each proper ancestor element, innermost first. -/
abbrev AncPath := List (Option Nat × Bool)

mutual
/-- Document-order flattening of a tree, pairing every node with its
ancestor path. -/
def flattenNodes (anc : AncPath) : DOMNode → List (AncPath × DOMNode)
  | .textNode t v => [(anc, .textNode t v)]
  | .elementNode tag attrs v i top hi cs =>
    (anc, .elementNode tag attrs v i top hi cs) :: flattenNodesList ((hi, i) :: anc) cs
def flattenNodesList (anc : AncPath) : DOMNodeList → List (AncPath × DOMNode)
  | .nil => []
  | .cons n ns => flattenNodes anc n ++ flattenNodesList anc ns
end

mutual
/-- The text leaves of a subtree, each with the path of
`(highlightIndex, isInteractive)` data of the elements strictly between
the subtree root and the leaf. -/
def textLeaves (path : AncPath) : DOMNode → List (AncPath × String × Bool)
  | .textNode t v => [(path, t, v)]
  | .elementNode _ _ _ _ _ hi cs => textLeavesList ((hi, false) :: path) cs
def textLeavesList (path : AncPath) : DOMNodeList → List (AncPath × String × Bool)
  | .nil => []
  | .cons n ns => textLeaves path n ++ textLeavesList path ns
end

/-- The spec's rule for one text leaf of an element's subtree: keep its
trimmed text when the leaf is visible, non-blank, and no element
between the subtree root and the leaf carries a highlight index. -/
def leafRule (e : AncPath × String × Bool) : Option String :=
  if e.2.2 ∧ ¬ jsTrim e.2.1 = "" ∧ e.1.all (fun p => p.1.isNone) then some (jsTrim e.2.1)
  else none

/-- Spec-side inner text of an element: visible, non-blank descendant
text, trimmed and joined by spaces, dropping every leaf that lies below
a descendant element carrying a highlight index. -/
def specInnerText (children : DOMNodeList) : String :=
  jsTrim (String.intercalate " " ((textLeavesList [] children).filterMap leafRule))

/-- Spec-side rendering of one flattened entry. -/
def specRender (includeAttributes : List String) (e : AncPath × DOMNode) : List String :=
  match e.2 with
  | .elementNode tag attrs isVisible isInteractive _ highlightIndex children =>
    match highlightIndex, isInteractive, isVisible with
    | some i, true, true =>
      ["[" ++ toString i ++ "]<" ++ tag ++ attributesString includeAttributes attrs
        ++ ">" ++ specInnerText children ++ "</" ++ tag ++ ">"]
    | _, _, _ => []
  | .textNode t v =>
    if v ∧ ¬ jsTrim t = "" ∧ e.1.all (fun p => p.1.isNone) then ["[]" ++ jsTrim t] else []

/-- Spec-side serialization: flatten, render each entry, join the lines. -/
def specSerializeClickable (includeAttributes : List String) (root : DOMNode) : String :=
  String.intercalate "\n" ((flattenNodes [] root).map (specRender includeAttributes)).flatten

/-! ### Equivalence of the source serializer and the spec rendering -/

mutual
/-- Below an element that carries a highlight index, the spec's leaf
rule keeps nothing. -/
theorem textLeaves_filterMap_nil : ∀ (n : DOMNode) (path : AncPath),
    path.all (fun p => p.1.isNone) = false →
    (textLeaves path n).filterMap leafRule = []
  | .textNode t v, path, h => by
    simp [textLeaves, leafRule, h]
  | .elementNode tag attrs v i top hi cs, path, h => by
    have hp : (((hi, false) :: path).all (fun p => p.1.isNone)) = false := by
      simp [h]
    simpa [textLeaves] using textLeavesList_filterMap_nil cs ((hi, false) :: path) hp

/-- List version of `textLeaves_filterMap_nil`. -/
theorem textLeavesList_filterMap_nil : ∀ (ns : DOMNodeList) (path : AncPath),
    path.all (fun p => p.1.isNone) = false →
    (textLeavesList path ns).filterMap leafRule = []
  | .nil, _, _ => by simp [textLeavesList]
  | .cons n ns, path, h => by
    simp [textLeavesList, List.filterMap_append,
      textLeaves_filterMap_nil n path h, textLeavesList_filterMap_nil ns path h]
end

mutual
/-- On an all-`none` path, `collectText` (with the default unlimited
depth) computes exactly the spec's filtered text leaves. -/
theorem collectText_eq_leaves : ∀ (n : DOMNode) (d : Int) (path : AncPath),
    path.all (fun p => p.1.isNone) = true →
    collectText (-1) d n = (textLeaves path n).filterMap leafRule
  | .textNode t v, d, path, h => by
    cases v <;> by_cases ht : jsTrim t = "" <;>
      simp [collectText, textLeaves, leafRule, ht, h]
  | .elementNode tag attrs v i top hi cs, d, path, h => by
    cases hi with
    | some j =>
      have hp : (((some j, false) :: path).all (fun p => p.1.isNone)) = false := by
        simp
      simp [collectText, textLeaves,
        textLeavesList_filterMap_nil cs ((some j, false) :: path) hp]
    | none =>
      have hp : (((none, false) :: path).all (fun p => p.1.isNone)) = true := by
        simp [h]
      simpa [collectText, textLeaves] using
        collectTextList_eq_leaves cs (d + 1) ((none, false) :: path) hp

/-- List version of `collectText_eq_leaves`. -/
theorem collectTextList_eq_leaves : ∀ (ns : DOMNodeList) (d : Int) (path : AncPath),
    path.all (fun p => p.1.isNone) = true →
    collectTextList (-1) d ns = (textLeavesList path ns).filterMap leafRule
  | .nil, _, _, _ => by simp [collectTextList, textLeavesList]
  | .cons n ns, d, path, h => by
    simp [collectTextList, textLeavesList, List.filterMap_append,
      collectText_eq_leaves n d path h, collectTextList_eq_leaves ns d path h]
end

/-- The source inner text (after the serializer's final trim) agrees
with the spec-side inner text. -/
theorem getAllText_eq_specInnerText (cs : DOMNodeList) :
    jsTrim (getAllTextTillNextClickableElement (-1) cs) = specInnerText cs := by
  simp [getAllTextTillNextClickableElement, specInnerText,
    collectTextList_eq_leaves cs 1 [] rfl]

/-- The parent-chain walk of the source sees a highlighted ancestor iff
the spec-side path is not all-`none`. -/
theorem hasParent_eq_not_all_none (path : AncPath) :
    hasParentWithHighlightIndex (path.map (fun p => p.1)) =
      ! path.all (fun p => p.1.isNone) := by
  induction path with
  | nil => simp [hasParentWithHighlightIndex]
  | cons p ps ih =>
    simp [hasParentWithHighlightIndex, List.any_cons, List.all_cons] at ih ⊢
    cases hp : p.1 <;> simp [hp, Option.isSome, ih, hasParentWithHighlightIndex]

mutual
/-- The source serializer's `processNode` computes exactly the
flatten-and-render spec serialization (the ancestor chain the source
reads through parent pointers is the projection of the spec path). -/
theorem processNode_eq_spec : ∀ (n : DOMNode) (incl : List String) (path : AncPath),
    processNode incl (path.map (fun p => p.1)) n =
      ((flattenNodes path n).map (specRender incl)).flatten
  | .textNode t v, incl, path => by
    simp only [processNode, flattenNodes, List.map_cons, List.map_nil, List.flatten,
      specRender, List.append_nil, hasParent_eq_not_all_none]
    by_cases hall : path.all (fun p => p.1.isNone) = true
    · simp [hall]
    · have hf : (path.all fun p => p.1.isNone) = false := by
        revert hall; cases path.all fun p => p.1.isNone <;> simp
      simp [hf]
  | .elementNode tag attrs v i top hi cs, incl, path => by
    have hchild :
        processList incl (hi :: path.map (fun p => p.1)) cs =
          ((flattenNodesList ((hi, i) :: path) cs).map (specRender incl)).flatten := by
      have := processList_eq_spec cs incl ((hi, i) :: path)
      simpa using this
    simp only [processNode, flattenNodes, List.map_cons, List.flatten_cons, specRender,
      getAllText_eq_specInnerText, hchild]

/-- List version of `processNode_eq_spec`. -/
theorem processList_eq_spec : ∀ (ns : DOMNodeList) (incl : List String) (path : AncPath),
    processList incl (path.map (fun p => p.1)) ns =
      ((flattenNodesList path ns).map (specRender incl)).flatten
  | .nil, incl, path => by simp [processList, flattenNodesList]
  | .cons n ns, incl, path => by
    simp [processList, flattenNodesList, List.map_append,
      processNode_eq_spec n incl path, processList_eq_spec ns incl path]
end

/-! ### The serializer claims -/

/-- The spec's serialization example: a `div` root with an interactive,
visible, top-most `button` child containing the text `Go` (assigned
highlight index 0) and a visible `span` child containing the visible
text `hi`. -/
def exampleTree : DOMNode :=
  .elementNode "div" [] true false false none
    (.cons (.elementNode "button" [] true true true (some 0)
        (.cons (.textNode "Go" true) .nil))
      (.cons (.elementNode "span" [] true false false none
          (.cons (.textNode "hi" true) .nil))
        .nil))

/-- C3: for every node tree, `clickableElementsToString` emits, for each
element that has a highlight index and is interactive and visible, one
line `[index]<tag ...>innerText</tag>` where `innerText` is the visible
descendant text trimmed and joined by spaces, collected depth-first but
truncated at every descendant element that itself carries a highlight
index, and the line is emitted even when the trimmed text is empty
(`specSerializeClickable` is exactly this rendering rule, applied to the
document-order flattening of the tree); in particular, on the spec's
example tree the output is `"[0]<button>Go</button>\n[]hi"`. -/
theorem serializeClickable_matches_spec :
    (∀ (includeAttributes : List String) (root : DOMNode),
        clickableElementsToString includeAttributes root =
          specSerializeClickable includeAttributes root) ∧
      clickableElementsToString [] exampleTree = "[0]<button>Go</button>\n[]hi" := by
  constructor
  · intro includeAttributes root
    have h := processNode_eq_spec root includeAttributes []
    simp only [List.map_nil] at h
    simp only [clickableElementsToString, specSerializeClickable]
    exact congrArg (String.intercalate "\n") h
  · rfl

/-- The standalone text lines that claim C8's rule ("visible and no
interactive ancestor") would emit for a tree, written from the claim's
words over the document-order flattening. -/
def claimStandaloneTextLines (root : DOMNode) : List String :=
  (flattenNodes [] root).filterMap (fun e =>
    match e.2 with
    | .textNode t v => if v ∧ e.1.all (fun p => p.2 = false) then some ("[]" ++ jsTrim t) else none
    | .elementNode _ _ _ _ _ _ _ => none)

/-- A visible text node under an interactive element that carries no
highlight index. -/
def c8TreeA : DOMNode :=
  .elementNode "div" [] true true false none (.cons (.textNode "hi" true) .nil)

/-- A visible, whitespace-only text node with no interactive ancestor. -/
def c8TreeB : DOMNode :=
  .elementNode "div" [] true false false none (.cons (.textNode "   " true) .nil)

/-- C8 counterexample: the serializer's standalone-text rule is not
"visible and no interactive ancestor".  On `c8TreeA` the text node has
an interactive ancestor (so the claim predicts no standalone line), yet
the serializer emits `[]hi`; on `c8TreeB` the text node is visible with
no interactive ancestor (so the claim predicts a standalone line), yet
the serializer emits nothing, because the trimmed text is blank. -/
theorem c8_standalone_text_counterexample :
    (clickableElementsToString [] c8TreeA = "[]hi" ∧
        claimStandaloneTextLines c8TreeA = []) ∧
      clickableElementsToString [] c8TreeB = "" ∧
        claimStandaloneTextLines c8TreeB = ["[]"] := by
  exact ⟨⟨rfl, rfl⟩, rfl, rfl⟩

/-- C8 amended: the serializer emits a standalone line `[]text` (with
the text trimmed) for exactly those text nodes that are visible, have
non-blank trimmed text, and have no ancestor element carrying a
highlight index — `specRender`'s text-node rule is exactly this
predicate, and the emitted line list is the document-order flattening
rendered by that rule. -/
theorem c8_standalone_text_amended :
    ∀ (includeAttributes : List String) (root : DOMNode),
      processNode includeAttributes [] root =
        ((flattenNodes [] root).map (specRender includeAttributes)).flatten := by
  intro includeAttributes root
  simpa using processNode_eq_spec root includeAttributes []

/-! ## JSON values and `JSON.parse`

The agent loop and the action parser both go through JavaScript's
`JSON.parse`.  JSON values are modelled by `Json`; numbers keep a
decimal mantissa/exponent pair (value = `mantissa * 10 ^ exp10`) without
normalization.  `jsonParse` is a strict recursive-descent parser written
on the character list with a fuel argument; the fuel passed by
`jsonParse` is generous enough that the out-of-fuel error is unreachable
on real inputs, and it only ever produces a syntax error, so it does not
affect the classification of outcomes. -/

structure JsonNumber where
  mantissa : Int
  exp10 : Int
deriving DecidableEq, Repr

inductive Json where
  | null
  | bool (b : Bool)
  | num (n : JsonNumber)
  | str (s : String)
  | arr (elems : List Json)
  | obj (fields : List (String × Json))

/-- JSON insignificant whitespace. -/
def isJsonWs (c : Char) : Bool :=
  c == ' ' || c == '\t' || c == '\n' || c == '\r'

/-- Skip insignificant whitespace. -/
def skipWs (cs : List Char) : List Char :=
  cs.dropWhile isJsonWs

/-- Property assignment on a JS object literal: a duplicate key
overwrites the earlier value but keeps its position. -/
def jsInsertField (fields : List (String × Json)) (k : String) (v : Json) :
    List (String × Json) :=
  if fields.any (fun p => p.1 == k) then
    fields.map (fun p => if p.1 == k then (k, v) else p)
  else fields ++ [(k, v)]

/-- The numeric value of a digit list. -/
def digitsToNat (ds : List Char) : Nat :=
  ds.foldl (fun a c => a * 10 + (c.toNat - 48)) 0

/-- Parse `digits [ . digits ] [ (e|E) [+|-] digits ]` into a
mantissa/exponent pair. -/
def parseNumberBody (neg : Bool) (cs : List Char) :
    Except String (JsonNumber × List Char) :=
  let (intDs, rest1) := cs.span Char.isDigit
  if intDs.isEmpty then .error "Unexpected token in JSON: expected digits"
  else if intDs.length > 1 ∧ intDs.head? = some '0' then
    .error "Unexpected leading zero in JSON number"
  else
    let (fracDs, rest2) :=
      match rest1 with
      | '.' :: tl =>
        let (ds, tl') := tl.span Char.isDigit
        if ds.isEmpty then ([], '.' :: tl) else (ds, tl')
      | _ => ([], rest1)
    let (expVal, rest3) :=
      match rest2 with
      | 'e' :: tl =>
        (match tl with
         | '-' :: tl' =>
           let (ds, tl'') := tl'.span Char.isDigit
           if ds.isEmpty then ((0 : Int), 'e' :: tl) else (-(digitsToNat ds : Int), tl'')
         | '+' :: tl' =>
           let (ds, tl'') := tl'.span Char.isDigit
           if ds.isEmpty then ((0 : Int), 'e' :: tl) else ((digitsToNat ds : Int), tl'')
         | _ =>
           let (ds, tl') := tl.span Char.isDigit
           if ds.isEmpty then ((0 : Int), 'e' :: tl) else ((digitsToNat ds : Int), tl'))
      | 'E' :: tl =>
        (match tl with
         | '-' :: tl' =>
           let (ds, tl'') := tl'.span Char.isDigit
           if ds.isEmpty then ((0 : Int), 'E' :: tl) else (-(digitsToNat ds : Int), tl'')
         | '+' :: tl' =>
           let (ds, tl'') := tl'.span Char.isDigit
           if ds.isEmpty then ((0 : Int), 'E' :: tl) else ((digitsToNat ds : Int), tl'')
         | _ =>
           let (ds, tl') := tl.span Char.isDigit
           if ds.isEmpty then ((0 : Int), 'E' :: tl) else ((digitsToNat ds : Int), tl'))
      | _ => ((0 : Int), rest2)
    let mantissaNat : Nat := digitsToNat intDs * 10 ^ fracDs.length + digitsToNat fracDs
    let mantissa : Int := if neg then -(mantissaNat : Int) else (mantissaNat : Int)
    .ok ({ mantissa := mantissa, exp10 := expVal - fracDs.length }, rest3)

/-- Parse the body of a JSON string literal (the opening quote already
consumed), decoding the standard escapes; `\uXXXX` becomes the code
point itself (surrogate pairs are not recombined). -/
def parseStringBody : Nat → List Char → List Char → Except String (String × List Char)
  | 0, _, _ => .error "Unexpected end of JSON input"
  | _ + 1, _acc, [] => .error "Unterminated string in JSON"
  | fuel + 1, acc, c :: rest =>
    if c = '"' then .ok (⟨acc.reverse⟩, rest)
    else if c = '\\' then
      match rest with
      | [] => .error "Unterminated string in JSON"
      | e :: rest' =>
        if e = '"' then parseStringBody fuel ('"' :: acc) rest'
        else if e = '\\' then parseStringBody fuel ('\\' :: acc) rest'
        else if e = '/' then parseStringBody fuel ('/' :: acc) rest'
        else if e = 'b' then parseStringBody fuel ('\x08' :: acc) rest'
        else if e = 'f' then parseStringBody fuel ('\x0c' :: acc) rest'
        else if e = 'n' then parseStringBody fuel ('\n' :: acc) rest'
        else if e = 'r' then parseStringBody fuel ('\r' :: acc) rest'
        else if e = 't' then parseStringBody fuel ('\t' :: acc) rest'
        else if e = 'u' then
          match rest' with
          | h1 :: h2 :: h3 :: h4 :: rest'' =>
            match hexDigits h1 h2 h3 h4 with
            | some n => parseStringBody fuel (Char.ofNat n :: acc) rest''
            | none => .error "Bad Unicode escape in JSON"
          | _ => .error "Bad Unicode escape in JSON"
        else .error "Bad escaped character in JSON"
    else parseStringBody fuel (c :: acc) rest
where
  hexVal (c : Char) : Option Nat :=
    if c.isDigit then some (c.toNat - 48)
    else if 'a' ≤ c ∧ c ≤ 'f' then some (c.toNat - 87)
    else if 'A' ≤ c ∧ c ≤ 'F' then some (c.toNat - 55)
    else none
  hexDigits (a b c d : Char) : Option Nat := do
    pure ((← hexVal a) * 4096 + (← hexVal b) * 256 + (← hexVal c) * 16 + (← hexVal d))

mutual
/-- Recursive-descent JSON value parser.  Returns the parsed value and
the unconsumed remainder. -/
def parseJsonValue : Nat → List Char → Except String (Json × List Char)
  | 0, _ => .error "Unexpected end of JSON input"
  | fuel + 1, cs =>
    match skipWs cs with
    | [] => .error "Unexpected end of JSON input"
    | c :: rest =>
      if c = 'n' then
        match rest with
        | 'u' :: 'l' :: 'l' :: rest' => .ok (.null, rest')
        | _ => .error "Unexpected token n in JSON"
      else if c = 't' then
        match rest with
        | 'r' :: 'u' :: 'e' :: rest' => .ok (.bool true, rest')
        | _ => .error "Unexpected token t in JSON"
      else if c = 'f' then
        match rest with
        | 'a' :: 'l' :: 's' :: 'e' :: rest' => .ok (.bool false, rest')
        | _ => .error "Unexpected token f in JSON"
      else if c = '"' then
        match parseStringBody (fuel + 1) [] rest with
        | .ok (s, rest') => .ok (.str s, rest')
        | .error e => .error e
      else if c = '[' then
        match skipWs rest with
        | ']' :: rest' => .ok (.arr [], rest')
        | _ => parseJsonElements fuel rest []
      else if c = '{' then
        match skipWs rest with
        | '}' :: rest' => .ok (.obj [], rest')
        | _ => parseJsonMembers fuel rest []
      else if c = '-' then
        match parseNumberBody true rest with
        | .ok (n, rest') => .ok (.num n, rest')
        | .error e => .error e
      else if c.isDigit then
        match parseNumberBody false (c :: rest) with
        | .ok (n, rest') => .ok (.num n, rest')
        | .error e => .error e
      else .error "Unexpected token in JSON"

/-- Parse the remaining elements of a non-empty array (after `[` or a
`,`). -/
def parseJsonElements : Nat → List Char → List Json → Except String (Json × List Char)
  | 0, _, _ => .error "Unexpected end of JSON input"
  | fuel + 1, cs, acc =>
    match parseJsonValue fuel cs with
    | .error e => .error e
    | .ok (v, rest) =>
      match skipWs rest with
      | ',' :: rest' => parseJsonElements fuel rest' (acc ++ [v])
      | ']' :: rest' => .ok (.arr (acc ++ [v]), rest')
      | _ => .error "Expected comma or closing bracket in JSON array"

/-- Parse the remaining members of a non-empty object (after `{` or a
`,`). -/
def parseJsonMembers : Nat → List Char → List (String × Json) →
    Except String (Json × List Char)
  | 0, _, _ => .error "Unexpected end of JSON input"
  | fuel + 1, cs, acc =>
    match skipWs cs with
    | '"' :: rest =>
      match parseStringBody (fuel + 1) [] rest with
      | .error e => .error e
      | .ok (k, rest') =>
        match skipWs rest' with
        | ':' :: rest'' =>
          match parseJsonValue fuel rest'' with
          | .error e => .error e
          | .ok (v, rest''') =>
            match skipWs rest''' with
            | ',' :: tl => parseJsonMembers fuel tl (jsInsertField acc k v)
            | '}' :: tl => .ok (.obj (jsInsertField acc k v), tl)
            | _ => .error "Expected comma or closing brace in JSON object"
        | _ => .error "Expected colon in JSON object"
    | _ => .error "Expected property name in JSON object"
end

/-- `JSON.parse`: parse one JSON value and require only whitespace after
it. -/
def jsonParse (s : String) : Except String Json :=
  match parseJsonValue (s.data.length * 4 + 16) s.data with
  | .error e => .error e
  | .ok (v, rest) =>
    match skipWs rest with
    | [] => .ok v
    | _ => .error "Unexpected non-whitespace character after JSON"

/-! ## JavaScript object helpers -/

/-- `Object.keys(v)`: own enumerable keys in insertion order; arrays and
strings contribute index keys, primitives contribute none, and
`null`/`undefined` throw a `TypeError` (modelled as `none`). -/
def jsObjectKeys : Json → Option (List String)
  | .null => none
  | .obj fs => some (fs.map (fun p => p.1))
  | .arr xs => some ((List.range xs.length).map (fun i => toString i))
  | .str s => some ((List.range s.length).map (fun i => toString i))
  | .num _ => some []
  | .bool _ => some []

/-- Property read `v[k]` for a non-index key: defined for objects,
`undefined` (`none`) elsewhere.  The embedded code only reads the keys
`action`, `actions`, `done`, `text` and catalog action names, none of
which is an array or string index key, so the index-property cases
cannot arise. -/
def jsGet (v : Json) (k : String) : Option Json :=
  match v with
  | .obj fs => fs.lookup k
  | _ => none

/-- JS truthiness of a JSON value. -/
def jsTruthy : Json → Bool
  | .null => false
  | .bool b => b
  | .num n => n.mantissa != 0
  | .str s => s != ""
  | .arr _ => true
  | .obj _ => true

/-! ## Action catalog and `parseAction` (the side panel's `actions.ts`)

Each catalog entry keeps the action name and the declared zod parameter
shape (`z.object` of required/optional `z.string()`/`z.number()`
fields; `no_params` is `z.object({}).passthrough()`).  The description
and example strings of the source are prompt copy consumed by prompt
assembly and play no role in parsing, so they are not modelled.
`zodValidate` models `schema.parse(value)`: it requires a plain object,
checks every declared field, strips undeclared keys unless the schema
is a passthrough, and a `none` result models the thrown `ZodError`. -/

inductive ZField where
  | zstr
  | znum
deriving DecidableEq, Repr

structure ZodObject where
  fields : List (String × ZField × Bool)
  passthrough : Bool
deriving DecidableEq, Repr

structure ActionSchemaEntry where
  action_name : String
  schema : ZodObject
deriving DecidableEq, Repr

def actionSchemas : List ActionSchemaEntry := [
  ⟨"search_google", ⟨[("query", .zstr, false)], false⟩⟩,
  ⟨"go_to_url", ⟨[("url", .zstr, false)], false⟩⟩,
  ⟨"click_element", ⟨[("index", .znum, false), ("xpath", .zstr, true)], false⟩⟩,
  ⟨"input_text", ⟨[("index", .znum, false), ("text", .zstr, false), ("xpath", .zstr, true)], false⟩⟩,
  ⟨"done", ⟨[("text", .zstr, false)], false⟩⟩,
  ⟨"switch_tab", ⟨[("page_id", .znum, false)], false⟩⟩,
  ⟨"open_tab", ⟨[("url", .zstr, false)], false⟩⟩,
  ⟨"scroll", ⟨[("amount", .znum, true)], false⟩⟩,
  ⟨"send_keys", ⟨[("keys", .zstr, false)], false⟩⟩,
  ⟨"extract_content", ⟨[("value", .zstr, false)], false⟩⟩,
  ⟨"scroll_to_text", ⟨[("text", .zstr, false)], false⟩⟩,
  ⟨"get_dropdown_options", ⟨[("index", .znum, false)], false⟩⟩,
  ⟨"select_dropdown_option", ⟨[("index", .znum, false), ("text", .zstr, false)], false⟩⟩,
  ⟨"no_params", ⟨[], true⟩⟩]

/-- Does a JSON value satisfy a declared zod field type? -/
def zFieldAccepts : ZField → Json → Bool
  | .zstr, .str _ => true
  | .znum, .num _ => true
  | _, _ => false

/-- `schema.parse(value)` for the catalog's object schemas.  The
validated object keeps the input's field order (zod enumerates the
shape's keys instead); the checked claims never inspect the field order
of a multi-field validated result. -/
def zodValidate (sch : ZodObject) (v : Option Json) : Option Json :=
  match v with
  | some (Json.obj fs) =>
    if sch.fields.all (fun f =>
        match fs.lookup f.1 with
        | some jv => zFieldAccepts f.2.1 jv
        | none => f.2.2) then
      some (if sch.passthrough then Json.obj fs
        else Json.obj (fs.filter (fun p => sch.fields.any (fun f => f.1 == p.1))))
    else none
  | _ => none

/-- The distinct failure modes of `parseAction`.  The source throws in
all of them: `SyntaxError` escapes `JSON.parse`, `TypeError` escapes
`Object.keys(null)`, `invalidFormat` is the thrown
`Action must have exactly one key representing the action name`,
`unknownAction` the thrown `Unknown action: ...`, and `schemaViolation`
the `ZodError` thrown by `schema.parse`. -/
inductive ParseErr where
  | syntaxError (message : String)
  | typeError
  | invalidFormat
  | unknownAction (name : String)
  | schemaViolation
deriving DecidableEq, Repr

/-- `parseAction(actionJson)` from the side panel's action catalog
module: decode the JSON, require exactly one top-level key, look the
key up in the catalog, validate the parameters against the declared
schema, and return the validated `{[actionName]: params}` object. -/
def parseAction (actionJson : String) : Except ParseErr Json :=
  match jsonParse actionJson with
  | .error m => .error (.syntaxError m)
  | .ok parsed =>
    match jsObjectKeys parsed with
    | none => .error .typeError
    | some actionNames =>
      match actionNames with
      | [actionName] =>
        match actionSchemas.find? (fun a => a.action_name == actionName) with
        | none => .error (.unknownAction actionName)
        | some entry =>
          match zodValidate entry.schema (jsGet parsed actionName) with
          | none => .error .schemaViolation
          | some params => .ok (.obj [(actionName, params)])
      | _ => .error .invalidFormat

/-- C4 counterexample: `parseAction` has outcomes beyond the claimed
four.  On the input `null` (valid JSON), `Object.keys(null)` throws a
`TypeError`; on the input `nope` (invalid JSON), `JSON.parse` throws a
`SyntaxError`.  Neither is a validated action, an InvalidFormat, an
UnknownAction, or a SchemaViolation failure. -/
theorem parseAction_counterexample :
    parseAction "null" = .error .typeError ∧
      parseAction "nope" = .error (.syntaxError "Unexpected token n in JSON") :=
  ⟨rfl, rfl⟩

/-- C4 amended: `parseAction` is total with exactly six outcomes — a
single validated action, a JSON `SyntaxError`, a `TypeError` (decoded
value is `null`), InvalidFormat (zero or more than one top-level key),
UnknownAction, or SchemaViolation — and behaves as documented on the
spec's concrete examples. -/
theorem parseAction_total_amended :
    (∀ s : String,
        (∃ a, parseAction s = .ok a) ∨
          (∃ m, parseAction s = .error (.syntaxError m)) ∨
            parseAction s = .error .typeError ∨
              parseAction s = .error .invalidFormat ∨
                (∃ n, parseAction s = .error (.unknownAction n)) ∨
                  parseAction s = .error .schemaViolation) ∧
      parseAction "\x7b\"click_element\":\x7b\"index\":1\x7d,\"input_text\":\x7b\"index\":2\x7d\x7d" =
          .error .invalidFormat ∧
        parseAction "\x7b\"frobnicate\":\x7b\x7d\x7d" = .error (.unknownAction "frobnicate") ∧
          parseAction "\x7b\"click_element\":\x7b\x7d\x7d" = .error .schemaViolation ∧
            parseAction "\x7b\"click_element\":\x7b\"index\":3\x7d\x7d" =
              .ok (.obj [("click_element", .obj [("index", .num ⟨3, 0⟩)])]) := by
  refine ⟨?_, rfl, rfl, rfl, rfl⟩
  intro s
  rcases hp : parseAction s with e | a
  case ok => exact Or.inl ⟨a, rfl⟩
  · rcases e with m | _ | _ | n | _
    · exact Or.inr (Or.inl ⟨m, rfl⟩)
    · exact Or.inr (Or.inr (Or.inl rfl))
    · exact Or.inr (Or.inr (Or.inr (Or.inl rfl)))
    · exact Or.inr (Or.inr (Or.inr (Or.inr (Or.inl ⟨n, rfl⟩))))
    · exact Or.inr (Or.inr (Or.inr (Or.inr (Or.inr rfl))))

/-! ## Uniform action results

`ActionResponse` (`{success, message?, error?}`) is shared by the
content-script executors and the agent loop. -/

structure ActionResponse where
  success : Bool
  message : Option String
  error : Option String
deriving DecidableEq, Repr

/-! ## In-page element lookup and executors
(`src/pages/content/src/index.ts`)

The live page is an environment: `evalXPath` models
`document.evaluate(xpath, ...).snapshotItem(0)`, `interactiveElements`
the fixed `document.querySelectorAll('button, a, input, textarea,
select, [role="button"]')` node list, and `innerHeight` the viewport
height.  Clicking and smooth-scrolling are side effects with no
observable return value; `executeScroll` additionally reports the pixel
amount handed to `window.scrollBy` so that the scrolled distance is
observable. -/

structure Element where
  textContent : String
deriving DecidableEq, Repr

/-- Element indices are modelled as integers; the zod schemas admit any
JS number, but a fractional index hits neither a locator-map key nor an
array slot, and no checked claim involves one. -/
structure PageEnv where
  evalXPath : String → Option Element
  interactiveElements : List Element
  innerHeight : Int

/-- `elements[index] || null` on an array-like: a valid non-negative
index yields the element, anything else yields `null`. -/
def jsIndexList (xs : List Element) (i : Int) : Option Element :=
  if 0 ≤ i then xs[i.toNat]? else none

/-- `findElement(index, xpaths?)`: when an xpath entry for
`index.toString()` exists, evaluate it and return the result when one
was found; otherwise (no entry, or the xpath resolved to no element)
fall back to positional lookup in the fixed interactive-element list. -/
def findElement (env : PageEnv) (index : Int) (xpaths : Option (List (String × String))) :
    Option Element :=
  match xpaths with
  | some xps =>
    match xps.lookup (toString index) with
    | some mappedXPath =>
      match env.evalXPath mappedXPath with
      | some element => some element
      | none => jsIndexList env.interactiveElements index
    | none => jsIndexList env.interactiveElements index
  | none => jsIndexList env.interactiveElements index

/-- `executeClickElement`: resolve the element, report
`Element not found` when the lookup fails, otherwise click (a pure side
effect) and report success with the element's text content.  The
`scrollIntoViewIfNeeded` call before the click has no observable
return value and nothing in the model throws, so the catch-all branch
is unreachable. -/
def executeClickElement (env : PageEnv) (index : Int)
    (xpaths : Option (List (String × String))) : ActionResponse :=
  match findElement env index xpaths with
  | none => { success := false, message := none, error := some "Element not found" }
  | some element =>
    { success := true,
      message := some ("Clicked element at index " ++ toString index ++ " with text \""
        ++ element.textContent ++ "\""),
      error := none }

/-- `executeScroll`: `params.amount || window.innerHeight` (so an
amount of 0 is falsy and falls back to one viewport height), scroll by
that amount, and report the direction and absolute distance.  The
second component is the `top` value handed to `window.scrollBy`. -/
def executeScroll (env : PageEnv) (amount? : Option Int) : ActionResponse × Int :=
  let amount : Int := match amount? with
    | some a => if a == 0 then env.innerHeight else a
    | none => env.innerHeight
  ({ success := true,
     message := some ("Scrolled " ++ (if amount > 0 then "down" else "up") ++ " by "
       ++ toString (if amount < 0 then -amount else amount) ++ " pixels"),
     error := none }, amount)

/-- The C5 counterexample page: no xpath ever resolves, and the fixed
interactive-element list has six entries. -/
def c5Env : PageEnv :=
  ⟨fun _ => none, [⟨"zero"⟩, ⟨"one"⟩, ⟨"two"⟩, ⟨"three"⟩, ⟨"four"⟩, ⟨"five"⟩], 600⟩

/-- The locator map of the C5 counterexample: it does contain an entry
for index 5. -/
def c5XPaths : List (String × String) := [("5", "//missing")]

/-- C5 counterexample: the positional fallback is used even though an
xpath entry exists for the index — the entry for index 5 is present but
resolves to no element, and `findElement`/`executeClickElement`
nevertheless return (and click) the sixth element of the fallback list
instead of failing with `Element not found` as an
only-if-no-entry-exists lookup would. -/
theorem findElement_fallback_counterexample :
    c5XPaths.lookup "5" = some "//missing" ∧
      c5Env.evalXPath "//missing" = none ∧
        findElement c5Env 5 (some c5XPaths) = some ⟨"five"⟩ ∧
          executeClickElement c5Env 5 (some c5XPaths) =
            { success := true,
              message := some "Clicked element at index 5 with text \"five\"",
              error := none } :=
  ⟨rfl, rfl, rfl, rfl⟩

/-- C5 amended: element lookup resolves the index through the locator
map first and uses the positional fallback exactly when the map has no
entry for the index or the entry's xpath resolves to no element; and
executing `click_element` with index 5 absent from the locator map and
fewer than 6 elements in the fallback list returns
`{success: false, error: "Element not found"}`. -/
theorem findElement_lookup_amended :
    (∀ (env : PageEnv) (i : Int) (xps : List (String × String)) (xp : String) (el : Element),
        xps.lookup (toString i) = some xp → env.evalXPath xp = some el →
          findElement env i (some xps) = some el) ∧
      (∀ (env : PageEnv) (i : Int) (xps : List (String × String)),
          xps.lookup (toString i) = none →
            findElement env i (some xps) = jsIndexList env.interactiveElements i) ∧
        (∀ (env : PageEnv) (i : Int) (xps : List (String × String)) (xp : String),
            xps.lookup (toString i) = some xp → env.evalXPath xp = none →
              findElement env i (some xps) = jsIndexList env.interactiveElements i) ∧
          (∀ (env : PageEnv) (xps : List (String × String)),
              xps.lookup "5" = none → env.interactiveElements.length < 6 →
                executeClickElement env 5 (some xps) =
                  { success := false, message := none, error := some "Element not found" }) := by
  refine ⟨?_, ?_, ?_, ?_⟩
  · intro env i xps xp el h1 h2
    simp [findElement, h1, h2]
  · intro env i xps h1
    simp [findElement, h1]
  · intro env i xps xp h1 h2
    simp [findElement, h1, h2]
  · intro env xps h1 h2
    have hidx : jsIndexList env.interactiveElements 5 = none := by
      have h5 : (5 : Int).toNat = 5 := rfl
      have : env.interactiveElements[(5 : Nat)]? = none := by
        rw [List.getElem?_eq_none]
        omega
      simp [jsIndexList, h5, this]
    have h1' : xps.lookup (toString (5 : Int)) = none := h1
    simp [executeClickElement, findElement, h1', hidx]

/-- The C5 witness page: an empty locator map and an empty fallback
list. -/
def c5WitnessEnv : PageEnv := ⟨fun _ => none, [], 0⟩

/-- Witness for the amended C5 theorem at a concrete page. -/
theorem findElement_lookup_amended_witness :
    ([] : List (String × String)).lookup "5" = none ∧
      c5WitnessEnv.interactiveElements.length < 6 ∧
        executeClickElement c5WitnessEnv 5 (some []) =
          { success := false, message := none, error := some "Element not found" } :=
  ⟨rfl, by decide, findElement_lookup_amended.2.2.2 c5WitnessEnv [] rfl (by decide)⟩

/-- C10: `executeScroll` treats an amount of 0 exactly like an absent
amount — both scroll by one full viewport height
(`window.innerHeight`) — and it returns success with a message
reporting the effective amount. -/
theorem executeScroll_zero_defaults :
    ∀ env : PageEnv,
      executeScroll env (some 0) = executeScroll env none ∧
        executeScroll env none =
          ({ success := true,
             message := some ("Scrolled " ++ (if env.innerHeight > 0 then "down" else "up")
               ++ " by " ++ toString (if env.innerHeight < 0 then -env.innerHeight else env.innerHeight)
               ++ " pixels"),
             error := none }, env.innerHeight) := by
  intro env
  constructor
  · simp [executeScroll]
  · rfl

/-! ## `getXPaths` (`src/pages/content/src/index.ts`)

A capture result is the raw node map produced by `buildDomTree`
(`buildDomTree` itself is external to the embedded sources; following
the spec's data model, a raw node carries a tag name, an xpath string,
an optional highlight index and the ordered child ids, with absent
string fields modelled as `""` and an absent highlight index as
`none`).  `getXPaths` walks the map from the root id, skipping missing
or falsy ids, and records `highlightIndex.toString() -> xpath` for
every node that has an xpath, a tag name, and a highlight index.  The
source recursion diverges on a cyclic map, so the walk takes a fuel
argument; for the tree-shaped maps the indexer produces, any
sufficiently large fuel computes the source's result, and the key
invariant below holds for every fuel.  (The source's local `index`
counter is incremented but never read, and is omitted.) -/

structure RawNode where
  tagName : String
  xpath : String
  highlightIndex : Option Nat
  children : List String
deriving DecidableEq, Repr

structure CaptureResult where
  rootId : String
  map : List (String × RawNode)
deriving DecidableEq, Repr

/-- Assignment `xpaths[k] = v` on the accumulating JS object. -/
def jsInsertStr (m : List (String × String)) (k v : String) : List (String × String) :=
  if m.any (fun p => p.1 == k) then m.map (fun p => if p.1 == k then (k, v) else p)
  else m ++ [(k, v)]

mutual
/-- The `traverse` closure of `getXPaths`. -/
def traverseNode (map : List (String × RawNode)) : Nat → String → List (String × String) →
    List (String × String)
  | 0, _, acc => acc
  | fuel + 1, nodeId, acc =>
    if nodeId = "" then acc
    else
      match map.lookup nodeId with
      | none => acc
      | some node =>
        let acc1 :=
          if node.xpath ≠ "" ∧ node.tagName ≠ "" then
            match node.highlightIndex with
            | some i => jsInsertStr acc (toString i) node.xpath
            | none => acc
          else acc
        traverseChildren map fuel node.children acc1

/-- The `children.forEach` loop of `traverse`, skipping falsy child
ids. -/
def traverseChildren (map : List (String × RawNode)) : Nat → List String →
    List (String × String) → List (String × String)
  | 0, _, acc => acc
  | _ + 1, [], acc => acc
  | fuel + 1, childId :: rest, acc =>
    traverseChildren map fuel rest
      (if childId ≠ "" then traverseNode map fuel childId acc else acc)
end

/-- `getXPaths(result)`: walk from the root id when it is truthy. -/
def getXPaths (fuel : Nat) (result : CaptureResult) : List (String × String) :=
  if result.rootId ≠ "" then traverseNode result.map fuel result.rootId [] else []

/-- An entry of the locator map is justified by a node of the capture:
its key is the decimal rendering of that node's highlight index and its
value is that node's xpath. -/
def GoodEntry (map : List (String × RawNode)) (p : String × String) : Prop :=
  ∃ id node i, (id, node) ∈ map ∧ node.highlightIndex = some i ∧
    p.1 = toString i ∧ p.2 = node.xpath

/-- A successful association lookup yields a member of the list. -/
theorem lookup_mem_rawmap : ∀ (l : List (String × RawNode)) (k : String) (v : RawNode),
    l.lookup k = some v → (k, v) ∈ l
  | [], _, _, h => by simp [List.lookup] at h
  | (k', v') :: tl, k, v, h => by
    by_cases hk : k = k'
    · subst hk
      simp [List.lookup] at h
      simp [h]
    · have hne : (k == k') = false := by
        simp [hk]
      simp [List.lookup, hne] at h
      exact List.mem_cons_of_mem _ (lookup_mem_rawmap tl k v h)

/-- `jsInsertStr` only adds the inserted pair. -/
theorem jsInsertStr_mem (m : List (String × String)) (k v : String) (p : String × String)
    (hp : p ∈ jsInsertStr m k v) : p = (k, v) ∨ p ∈ m := by
  unfold jsInsertStr at hp
  by_cases hany : (m.any fun q => q.1 == k) = true
  · rw [if_pos hany] at hp
    rcases List.mem_map.mp hp with ⟨q, hq, hpq⟩
    by_cases hqk : (q.1 == k) = true
    · rw [if_pos hqk] at hpq
      exact Or.inl hpq.symm
    · rw [if_neg hqk] at hpq
      exact Or.inr (hpq ▸ hq)
  · rw [if_neg hany] at hp
    rcases List.mem_append.mp hp with hp | hp
    · exact Or.inr hp
    · exact Or.inl (by simpa using hp)

mutual
/-- The walk only ever records justified entries. -/
theorem traverseNode_good : ∀ (map : List (String × RawNode)) (fuel : Nat) (nodeId : String)
    (acc : List (String × String)),
    (∀ p ∈ acc, GoodEntry map p) → ∀ p ∈ traverseNode map fuel nodeId acc, GoodEntry map p
  | map, 0, nodeId, acc, hacc => by
    simpa [traverseNode] using hacc
  | map, fuel + 1, nodeId, acc, hacc => by
    unfold traverseNode
    by_cases hid : nodeId = ""
    · simpa [hid] using hacc
    · rw [if_neg hid]
      cases hlk : map.lookup nodeId with
      | none => simpa using hacc
      | some node =>
        have hmem : (nodeId, node) ∈ map := lookup_mem_rawmap map nodeId node hlk
        have hacc1 : ∀ p ∈ (if node.xpath ≠ "" ∧ node.tagName ≠ "" then
            match node.highlightIndex with
            | some i => jsInsertStr acc (toString i) node.xpath
            | none => acc
          else acc), GoodEntry map p := by
          by_cases hxt : node.xpath ≠ "" ∧ node.tagName ≠ ""
          · rw [if_pos hxt]
            cases hhi : node.highlightIndex with
            | none => exact hacc
            | some i =>
              intro p hp
              rcases jsInsertStr_mem acc (toString i) node.xpath p hp with hp | hp
              · exact ⟨nodeId, node, i, hmem, hhi, by simp [hp], by simp [hp]⟩
              · exact hacc p hp
          · rw [if_neg hxt]
            exact hacc
        exact traverseChildren_good map fuel node.children _ hacc1

/-- List version of `traverseNode_good`. -/
theorem traverseChildren_good : ∀ (map : List (String × RawNode)) (fuel : Nat)
    (childIds : List String) (acc : List (String × String)),
    (∀ p ∈ acc, GoodEntry map p) →
    ∀ p ∈ traverseChildren map fuel childIds acc, GoodEntry map p
  | map, 0, childIds, acc, hacc => by
    simpa [traverseChildren] using hacc
  | map, fuel + 1, [], acc, hacc => by
    simpa [traverseChildren] using hacc
  | map, fuel + 1, childId :: rest, acc, hacc => by
    unfold traverseChildren
    refine traverseChildren_good map fuel rest _ ?_
    by_cases hc : childId ≠ ""
    · rw [if_pos hc]
      exact traverseNode_good map fuel childId acc hacc
    · rw [if_neg hc]
      exact hacc
end

/-- C9: every key of the locator map produced by `getXPaths` is the
decimal rendering of the highlight index of a node of the same
capture's map (and the recorded value is that node's xpath) — no key is
invented for a node without a highlight index. -/
theorem getXPaths_keys_from_capture :
    ∀ (fuel : Nat) (result : CaptureResult) (k v : String),
      (k, v) ∈ getXPaths fuel result →
      ∃ id node i, (id, node) ∈ result.map ∧ node.highlightIndex = some i ∧
        k = toString i ∧ v = node.xpath := by
  intro fuel result k v hkv
  unfold getXPaths at hkv
  by_cases hr : result.rootId ≠ ""
  · rw [if_pos hr] at hkv
    have := traverseNode_good result.map fuel result.rootId [] (by simp) (k, v) hkv
    rcases this with ⟨id, node, i, hmem, hhi, hk, hv⟩
    exact ⟨id, node, i, hmem, hhi, hk, hv⟩
  · rw [if_neg hr] at hkv
    simp at hkv

/-- The witness capture: a single `button` node with xpath `//button`
and highlight index 0. -/
def c9Capture : CaptureResult :=
  ⟨"r", [("r", ⟨"button", "//button", some 0, []⟩)]⟩

/-- Witness for C9 at a concrete capture. -/
theorem getXPaths_keys_from_capture_witness :
    ("0", "//button") ∈ getXPaths 2 c9Capture ∧
      ∃ id node i, (id, node) ∈ c9Capture.map ∧ node.highlightIndex = some i ∧
        "0" = toString i ∧ "//button" = node.xpath :=
  ⟨by decide, getXPaths_keys_from_capture 2 c9Capture "0" "//button" (by decide)⟩

/-! ## The agent loop (`chatService.ts`, `getChatResponseInternal`)

The loop's collaborators are a pure environment:

* `apiKey`/`maxRounds` — the configuration read from `configStorage`
  (an empty `apiKey` models the unset key, which makes the round throw
  into the outer catch);
* `reply n` — the completion API's behaviour on the request of attempt
  `n`: `notOk` models a non-success response (its field is
  `error.error?.message`, with `""` for an absent message), `badPayload`
  a success response whose `data.choices[0].message.content` access
  throws, and `ok content` a success response with the given body;
* `execute n a` — the `ActionResponse` that `executeAction(actionJson,
  xpaths)` produces for action `a` during attempt `n` (action execution
  never throws: the executors catch internally).

Page capture (`getCurrentHumanPrompt`) is modelled as always
succeeding; no checked claim concerns capture failures.  The returned
event trace records, in order, each round start (the
`Collecting browser context` update, emitted after the api-key check)
and each executed action, making round counts and executed actions
observable.  `JSON.stringify` followed by `JSON.parse` on an action
object is the identity on these JSON values, so the per-action
stringify/parse round trip of the source is dropped. -/

inductive ApiReply where
  | notOk (errMessage : String)
  | badPayload (message : String)
  | ok (content : String)

structure ExecEnv where
  apiKey : String
  maxRounds : Nat
  reply : Nat → ApiReply
  execute : Nat → Json → ActionResponse

inductive Ev where
  | roundStart (attempt : Nat)
  | executed (actionName : Option String) (result : ActionResponse)
deriving DecidableEq, Repr

structure ChatResponse where
  content : String
  error : Option String
deriving DecidableEq, Repr

/-- `aiResponse.replace(/^```json\n/, '').replace(/```$/, '')`: strip a
leading fenced-JSON opener and then a trailing fence. -/
def stripFences (s : String) : String :=
  let s1 := if ("```json\n".data).isPrefixOf s.data then String.mk (s.data.drop 8) else s
  if ("```".data).isSuffixOf s1.data then String.mk (s1.data.take (s1.data.length - 3)) else s1

/-- JS number-to-string, exact for the integer-valued numbers that the
embedded flows produce (other values keep an explicit exponent
marker). -/
def jsNumberToString (n : JsonNumber) : String :=
  if n.exp10 = 0 then toString n.mantissa
  else toString n.mantissa ++ "e" ++ toString n.exp10

mutual
/-- String conversion of a JSON value as a JS template literal performs
it. -/
def jsTemplate : Json → String
  | .null => "null"
  | .bool b => if b then "true" else "false"
  | .num n => jsNumberToString n
  | .str s => s
  | .arr xs => String.intercalate "," (jsTemplateArrItems xs)
  | .obj _ => "[object Object]"
/-- Array elements joined by commas; a `null` element renders empty. -/
def jsTemplateArrItems : List Json → List String
  | [] => []
  | .null :: rest => "" :: jsTemplateArrItems rest
  | x :: rest => jsTemplate x :: jsTemplateArrItems rest
end

/-- `a ?? b`: `b` exactly when `a` is `undefined` (`none`) or `null`. -/
def jsCoalesce (a b : Option Json) : Option Json :=
  match a with
  | none => b
  | some Json.null => b
  | some v => some v

/-- `parsedResponse.action ?? parsedResponse.actions`. -/
def extractActions (parsedResponse : Json) : Option Json :=
  jsCoalesce (jsGet parsedResponse "action") (jsGet parsedResponse "actions")

/-- The `length` property of a JSON value (arrays and strings have
their element counts; plain objects only what they carry
explicitly). -/
def jsLengthProp : Json → Option Json
  | .arr xs => some (.num ⟨xs.length, 0⟩)
  | .str s => some (.num ⟨s.length, 0⟩)
  | .obj fs => fs.lookup "length"
  | _ => none

/-- `v.length === 0`. -/
def isLengthZero (v : Json) : Bool :=
  match jsLengthProp v with
  | some (.num n) => n.mantissa == 0
  | _ => false

/-- The effective round budget after the `if (!maxAttempts) maxAttempts
= config.maxRounds` step: an unset (or falsy 0) budget is replaced by
the configured `maxRounds`. -/
def maxAValue (e : ExecEnv) : Option Nat → Nat
  | none => e.maxRounds
  | some m => if m = 0 then e.maxRounds else m

/-- The completion response produced by a `done` action: its truthy
`text` is reported, otherwise the plain completion message. -/
def doneResponse (action : Json) : ChatResponse :=
  match (jsGet action "done").bind (fun dv => jsGet dv "text") with
  | some tv =>
    if jsTruthy tv then ⟨"✔️ Task is completed: " ++ jsTemplate tv, none⟩
    else ⟨"✔️ Task is completed.", none⟩
  | none => ⟨"✔️ Task is completed.", none⟩

/-- Outcome of the `for (const action of actions)` loop of one round. -/
inductive BatchOut where
  | completed (results : List ActionResponse)
  | doneHit (response : ChatResponse)
  | raised

/-- One round's action loop: each action's name is its first top-level
key; a `done` action returns the completion response immediately
(preferring its truthy `text`), any other action is executed and its
result pushed; `Object.keys` on a `null` entry throws into the
enclosing parse catch (`raised`). -/
def runBatch (e : ExecEnv) (attempt : Nat) : List Json → List ActionResponse →
    BatchOut × List Ev
  | [], acc => (.completed acc, [])
  | action :: rest, acc =>
    match jsObjectKeys action with
    | none => (.raised, [])
    | some keys =>
      let actionName := keys.head?
      if actionName = some "done" then
        (.doneHit (doneResponse action), [])
      else
        let result := e.execute attempt action
        let next := runBatch e attempt rest (acc ++ [result])
        (next.1, .executed actionName result :: next.2)

/-- How the `try { JSON.parse ... }` block classifies a response body:
`parseFail` covers everything that throws inside the parse try — a
`JSON.parse` failure, a `null` body object (the `.action` access
throws), or a truthy non-iterable `actions` value (the `for...of`
throws) — and is answered with the raw body as plain text; `noActions`
covers an absent, falsy or zero-length `actions` value; `batch` carries
the ordered action list (a string value iterates into its characters).
-/
inductive BodyParse where
  | parseFail
  | noActions
  | batch (actions : List Json)

def classifyBody (aiResponse : String) : BodyParse :=
  match jsonParse (stripFences aiResponse) with
  | .error _ => .parseFail
  | .ok Json.null => .parseFail
  | .ok parsed =>
    match extractActions parsed with
    | none => .noActions
    | some actions =>
      if jsTruthy actions = false then .noActions
      else if isLengthZero actions then .noActions
      else
        match actions with
        | .arr xs => .batch xs
        | .str s => .batch (s.data.map (fun c => Json.str (String.mk [c])))
        | _ => .parseFail

/-- `getChatResponseInternal(message, attempt, maxAttempts,
previousActionResults)`: the bounded-round agent loop, returning the
`ChatResponse` together with the observable event trace.  Branches, in
source order: the budget guard (against `maxAttempts ?? 10`); the
api-key check (throwing into the outer catch, which returns
`{content: '', error}`); the completion request (a non-success response
throws the payload's error message, a malformed payload throws a
`TypeError`, both into the outer catch); the parse of the body (a
`JSON.parse` failure, a `null` body object, and a non-iterable truthy
`actions` value all land in the parse catch, which returns the raw body
as a plain-text response); the empty/absent-actions check; the action
loop; and the recursion into the next round with the accumulated
results. -/
def getChatResponseInternal (e : ExecEnv) (message : String) (attempt : Nat)
    (maxAttempts : Option Nat) (previousActionResults : List ActionResponse) :
    ChatResponse × List Ev :=
  if h : attempt > maxAttempts.getD 10 then
    (⟨"❌ Failed to complete task after " ++ toString (maxAttempts.getD 10) ++ " attempts",
      none⟩, [])
  else
    if e.apiKey = "" then
      (⟨"", some "API key not configured. Please set your API key in the extension popup."⟩, [])
    else
      match e.reply attempt with
      | .notOk m =>
        (⟨"", some (if m = "" then "Failed to get AI response" else m)⟩, [.roundStart attempt])
      | .badPayload m => (⟨"", some m⟩, [.roundStart attempt])
      | .ok aiResponse =>
        match classifyBody aiResponse with
        | .parseFail => (⟨aiResponse, none⟩, [.roundStart attempt])
        | .noActions => (⟨"No more actions to perform.", none⟩, [.roundStart attempt])
        | .batch xs =>
          match runBatch e attempt xs previousActionResults with
          | (.doneHit resp, evs) => (resp, .roundStart attempt :: evs)
          | (.raised, evs) => (⟨aiResponse, none⟩, .roundStart attempt :: evs)
          | (.completed results, evs) =>
            let next := getChatResponseInternal e message (attempt + 1)
              (some (maxAValue e maxAttempts)) results
            (next.1, .roundStart attempt :: (evs ++ next.2))
termination_by
  (match maxAttempts with
    | none => e.maxRounds + 12
    | some m => (if m = 0 then e.maxRounds else m) + 2) - attempt
decreasing_by
  simp only [gt_iff_lt, not_lt] at h
  rcases maxAttempts with _ | m <;>
    simp only [Option.getD, maxAValue] at h ⊢ <;> split_ifs <;> omega

/-- `getChatResponse(message)`: the entry point starts at attempt 1
with the round budget still unset. -/
def getChatResponse (e : ExecEnv) (message : String) : ChatResponse × List Ev :=
  getChatResponseInternal e message 1 none []

/-! ### Round-level behaviour of the loop -/

/-- With rounds remaining, a configured api key, and a non-success
completion response, the invocation returns the error result at once.
-/
theorem loop_notOk_step (e : ExecEnv) (message : String) (n : Nat)
    (maxAttempts : Option Nat) (prev : List ActionResponse) (m : String)
    (hkey : ¬ e.apiKey = "") (hn : ¬ n > maxAttempts.getD 10)
    (hr : e.reply n = .notOk m) :
    getChatResponseInternal e message n maxAttempts prev =
      (⟨"", some (if m = "" then "Failed to get AI response" else m)⟩, [.roundStart n]) := by
  rw [getChatResponseInternal, dif_neg hn, if_neg hkey, hr]

/-- With rounds remaining, a configured api key, and a malformed
completion payload, the invocation returns the error result at once. -/
theorem loop_badPayload_step (e : ExecEnv) (message : String) (n : Nat)
    (maxAttempts : Option Nat) (prev : List ActionResponse) (m : String)
    (hkey : ¬ e.apiKey = "") (hn : ¬ n > maxAttempts.getD 10)
    (hr : e.reply n = .badPayload m) :
    getChatResponseInternal e message n maxAttempts prev = (⟨"", some m⟩, [.roundStart n]) := by
  rw [getChatResponseInternal, dif_neg hn, if_neg hkey, hr]

/-- With rounds remaining and a response body that `JSON.parse`
rejects, the invocation returns the raw body as a plain-text result at
once. -/
theorem loop_parse_error_step (e : ExecEnv) (message : String) (n : Nat)
    (maxAttempts : Option Nat) (prev : List ActionResponse) (content m : String)
    (hkey : ¬ e.apiKey = "") (hn : ¬ n > maxAttempts.getD 10)
    (hr : e.reply n = .ok content)
    (hparse : jsonParse (stripFences content) = .error m) :
    getChatResponseInternal e message n maxAttempts prev =
      (⟨content, none⟩, [.roundStart n]) := by
  have hclass : classifyBody content = .parseFail := by
    unfold classifyBody
    rw [hparse]
  rw [getChatResponseInternal, dif_neg hn, if_neg hkey, hr]
  simp only [hclass]

/-- An action entry whose first top-level key exists (or whose key list
is empty) and is not `done`; `Object.keys` succeeds on it. -/
def NotDoneEntry (a : Json) : Prop :=
  ∃ ks, jsObjectKeys a = some ks ∧ ks.head? ≠ some "done"

/-- An action entry whose first top-level key is `done`. -/
def DoneEntry (a : Json) : Prop :=
  ∃ ks, jsObjectKeys a = some ks ∧ ks.head? = some "done"

/-- A batch with no `done` action executes every action in order and
falls off the end of the loop with all results pushed. -/
theorem runBatch_all_executed (e : ExecEnv) (attempt : Nat) :
    ∀ (batch : List Json) (acc : List ActionResponse),
      (∀ a ∈ batch, NotDoneEntry a) →
      runBatch e attempt batch acc =
        (.completed (acc ++ batch.map (e.execute attempt)),
          batch.map (fun a =>
            Ev.executed ((jsObjectKeys a).bind List.head?) (e.execute attempt a)))
  | [], acc, _ => by simp [runBatch]
  | action :: rest, acc, h => by
    obtain ⟨ks, hks, hne⟩ := h action (List.mem_cons_self action rest)
    have ih := runBatch_all_executed e attempt rest (acc ++ [e.execute attempt action])
      (fun a ha => h a (List.mem_cons_of_mem _ ha))
    simp only [runBatch, hks]
    rw [if_neg hne]
    simp [ih, hks]

/-- Reaching the first `done` action executes exactly the prefix before
it, in order, and ends the batch with the completion response; nothing
after the `done` action runs. -/
theorem runBatch_done_hit (e : ExecEnv) (attempt : Nat) :
    ∀ (pre : List Json) (acc : List ActionResponse) (dObj : Json) (post : List Json),
      (∀ a ∈ pre, NotDoneEntry a) → DoneEntry dObj →
      runBatch e attempt (pre ++ dObj :: post) acc =
        (.doneHit (doneResponse dObj),
          pre.map (fun a =>
            Ev.executed ((jsObjectKeys a).bind List.head?) (e.execute attempt a)))
  | [], acc, dObj, post, _, ⟨ks, hks, hd⟩ => by
    simp only [List.nil_append, runBatch, hks]
    rw [if_pos hd]
    simp
  | action :: rest, acc, dObj, post, h, hdone => by
    obtain ⟨ks, hks, hne⟩ := h action (List.mem_cons_self action rest)
    have ih := runBatch_done_hit e attempt rest (acc ++ [e.execute attempt action]) dObj post
      (fun a ha => h a (List.mem_cons_of_mem _ ha)) hdone
    simp only [List.cons_append, runBatch, hks]
    rw [if_neg hne]
    simp [ih, hks]

/-- With rounds remaining, a configured api key, and a response body
classified as an action batch, the round reduces to the batch loop:
a `done` hit or a raised batch ends the invocation with that round's
result, and a completed batch recurses into the next attempt with the
accumulated results. -/
theorem loop_batch_step (e : ExecEnv) (message : String) (n : Nat)
    (maxAttempts : Option Nat) (prev : List ActionResponse) (content : String)
    (xs : List Json)
    (hkey : ¬ e.apiKey = "") (hn : ¬ n > maxAttempts.getD 10)
    (hr : e.reply n = .ok content)
    (hclass : classifyBody content = .batch xs) :
    getChatResponseInternal e message n maxAttempts prev =
      (match runBatch e n xs prev with
       | (.doneHit resp, evs) => (resp, .roundStart n :: evs)
       | (.raised, evs) => (⟨content, none⟩, .roundStart n :: evs)
       | (.completed results, evs) =>
         let next := getChatResponseInternal e message (n + 1)
           (some (maxAValue e maxAttempts)) results
         (next.1, .roundStart n :: (evs ++ next.2))) := by
  rw [getChatResponseInternal, dif_neg hn, if_neg hkey, hr]
  simp only [hclass]

/-- C1: whenever the parsed action batch is `pre ++ done :: post` with
no `done` action in `pre`, the loop executes exactly `pre` strictly in
order, then terminates the whole invocation immediately with the
success result carried by the `done` action's text; no action after the
`done` (in particular nothing of `post`) ever executes, as the returned
trace shows. -/
theorem c1_done_short_circuits (e : ExecEnv) (message : String) (n : Nat)
    (maxAttempts : Option Nat) (prev : List ActionResponse) (content : String)
    (pre : List Json) (dObj : Json) (post : List Json) (t : String)
    (hkey : e.apiKey ≠ "") (hn : n ≤ maxAttempts.getD 10)
    (hr : e.reply n = .ok content)
    (hclass : classifyBody content = .batch (pre ++ dObj :: post))
    (hpre : ∀ a ∈ pre, NotDoneEntry a) (hdone : DoneEntry dObj)
    (htext : (jsGet dObj "done").bind (fun dv => jsGet dv "text") = some (Json.str t))
    (ht : t ≠ "") :
    getChatResponseInternal e message n maxAttempts prev =
      (⟨"✔️ Task is completed: " ++ t, none⟩,
        .roundStart n :: pre.map (fun a =>
          Ev.executed ((jsObjectKeys a).bind List.head?) (e.execute n a))) := by
  have hb := loop_batch_step e message n maxAttempts prev content (pre ++ dObj :: post)
    hkey (not_lt.mpr hn) hr hclass
  have hrb := runBatch_done_hit e n pre prev dObj post hpre hdone
  rw [hb, hrb]
  have htv : jsTruthy (Json.str t) = true := by
    simp [jsTruthy, ht]
  simp [doneResponse, htext, htv, jsTemplate]

/-- The round numbers at which the trace records a round start. -/
def roundStartsOf (trace : List Ev) : List Nat :=
  trace.filterMap (fun ev =>
    match ev with
    | .roundStart k => some k
    | .executed _ _ => none)

/-- Executed-action events contribute no round starts. -/
theorem roundStartsOf_executed (batch : List Json) (f : Json → Option String)
    (g : Json → ActionResponse) :
    roundStartsOf (batch.map (fun a => Ev.executed (f a) (g a))) = [] := by
  simp [roundStartsOf, List.filterMap_map]

/-- Away from `done`, every in-budget attempt runs one full round and
recurses, so starting from attempt `n ≤ N + 1` (with budget `N =
e.maxRounds` already set) the loop runs rounds `n, n+1, ..., N` and then
fails with the budget-exhausted result. -/
theorem loop_exhausts (e : ExecEnv) (message : String) (content : Nat → String)
    (batch : Nat → List Json)
    (hkey : ¬ e.apiKey = "")
    (hr : ∀ k, e.reply k = .ok (content k))
    (hclass : ∀ k, classifyBody (content k) = .batch (batch k))
    (hnd : ∀ k, ∀ a ∈ batch k, NotDoneEntry a) :
    ∀ (n : Nat) (prev : List ActionResponse), 1 ≤ n → n ≤ e.maxRounds + 1 →
      (getChatResponseInternal e message n (some e.maxRounds) prev).1 =
          ⟨"❌ Failed to complete task after " ++ toString e.maxRounds ++ " attempts", none⟩ ∧
        roundStartsOf (getChatResponseInternal e message n (some e.maxRounds) prev).2 =
          List.range' n (e.maxRounds + 1 - n)
  | n, prev, h1, h2 => by
    by_cases hn : n > e.maxRounds
    · have hguard : n > (some e.maxRounds : Option Nat).getD 10 := hn
      rw [getChatResponseInternal, dif_pos hguard]
      have h0 : e.maxRounds + 1 - n = 0 := by omega
      refine ⟨rfl, ?_⟩
      simp [roundStartsOf, h0]
    · have hb := loop_batch_step e message n (some e.maxRounds) prev (content n) (batch n)
        hkey hn (hr n) (hclass n)
      have hrb := runBatch_all_executed e n (batch n) prev (hnd n)
      rw [hb, hrb]
      have hmax : maxAValue e (some e.maxRounds) = e.maxRounds := by
        simp [maxAValue]
      have ih := loop_exhausts e message content batch hkey hr hclass hnd (n + 1)
        (prev ++ (batch n).map (e.execute n)) (by omega) (by omega)
      rw [hmax] at *
      constructor
      · exact ih.1
      · have hr1 : e.maxRounds + 1 - n = (e.maxRounds + 1 - (n + 1)) + 1 := by omega
        simp only [roundStartsOf, List.filterMap_cons, List.filterMap_append]
        rw [hr1, List.range'_succ]
        have hev := roundStartsOf_executed (batch n)
          (fun a => (jsObjectKeys a).bind List.head?) (e.execute n)
        simp only [roundStartsOf] at hev ih
        simp [hev, ih.2]
termination_by n _ _ _ => e.maxRounds + 1 - n

/-- C2: with the configured round budget `N = maxRounds ≥ 1` and a
model that on every round returns a well-formed, non-empty action batch
never containing `done`, the invocation performs exactly the rounds
`1, ..., N` (as the trace's round starts show) and then terminates with
the budget-exhausted result; no round `N + 1` ever starts. -/
theorem c2_budget_exhaustion (e : ExecEnv) (message : String) (content : Nat → String)
    (batch : Nat → List Json)
    (hN : 1 ≤ e.maxRounds) (hkey : e.apiKey ≠ "")
    (hr : ∀ k, e.reply k = .ok (content k))
    (hclass : ∀ k, classifyBody (content k) = .batch (batch k))
    (hnd : ∀ k, ∀ a ∈ batch k, NotDoneEntry a) :
    (getChatResponse e message).1 =
        ⟨"❌ Failed to complete task after " ++ toString e.maxRounds ++ " attempts", none⟩ ∧
      roundStartsOf (getChatResponse e message).2 = List.range' 1 e.maxRounds := by
  unfold getChatResponse
  have hb := loop_batch_step e message 1 none [] (content 1) (batch 1) hkey (by decide)
    (hr 1) (hclass 1)
  have hrb := runBatch_all_executed e 1 (batch 1) [] (hnd 1)
  rw [hb, hrb]
  have hmax : maxAValue e none = e.maxRounds := rfl
  rw [hmax]
  have ih := loop_exhausts e message content batch hkey hr hclass hnd 2
    ([] ++ (batch 1).map (e.execute 1)) (by omega) (by omega)
  constructor
  · exact ih.1
  · have hr1 : e.maxRounds = (e.maxRounds - 1) + 1 := by omega
    have hrange : List.range' 1 e.maxRounds = 1 :: List.range' 2 (e.maxRounds - 1) := by
      conv_lhs => rw [hr1]
      rw [List.range'_succ]
    simp only [roundStartsOf, List.filterMap_cons, List.filterMap_append]
    rw [hrange]
    have hev := roundStartsOf_executed (batch 1)
      (fun a => (jsObjectKeys a).bind List.head?) (e.execute 1)
    simp only [roundStartsOf] at hev ih
    have h21 : e.maxRounds + 1 - 2 = e.maxRounds - 1 := by omega
    rw [h21] at ih
    simp only [List.nil_append] at ih
    simp [hev, ih.2]

/-- C6: a model response whose body `JSON.parse` cannot decode is not a
round failure and raises nothing: the loop returns the raw response
text as a plain-text result (no error field) and the invocation ends
with that single round — no retry is consumed. -/
theorem c6_parse_error_plain_text :
    ∀ (e : ExecEnv) (message : String) (n : Nat) (maxAttempts : Option Nat)
      (prev : List ActionResponse) (content m : String),
      e.apiKey ≠ "" → n ≤ maxAttempts.getD 10 → e.reply n = .ok content →
      jsonParse (stripFences content) = .error m →
      getChatResponseInternal e message n maxAttempts prev =
        (⟨content, none⟩, [.roundStart n]) :=
  fun e message n maxAttempts prev content m hkey hn hr hp =>
    loop_parse_error_step e message n maxAttempts prev content m hkey (not_lt.mpr hn) hr hp

/-- The environment refuting C7: a budget of 3 rounds and a completion
API that answers attempt 1 with a non-success response. -/
def c7Env : ExecEnv := ⟨"key", 3, fun _ => .notOk "boom", fun _ _ => ⟨true, none, none⟩⟩

/-- C7 counterexample: with rounds remaining (budget 3, failure on
round 1), a non-success completion response does not restart the round
from COLLECTING — the invocation terminates at once with the error
result, and the trace shows that no second round ever starts. -/
theorem c7_api_error_counterexample :
    c7Env.maxRounds = 3 ∧
      getChatResponse c7Env "goal" = (⟨"", some "boom"⟩, [.roundStart 1]) := by
  refine ⟨rfl, ?_⟩
  unfold getChatResponse
  have h := loop_notOk_step c7Env "goal" 1 none [] "boom" (by decide) (by decide) rfl
  simpa using h

/-- C7 amended: a non-success completion response or a malformed
completion payload terminates the invocation immediately with a
structured error result `{content: '', error}` — it does not increment
the round counter, does not restart from COLLECTING, and consumes no
further rounds (the trace ends with the failing round). -/
theorem c7_api_error_amended :
    (∀ (e : ExecEnv) (message : String) (n : Nat) (maxAttempts : Option Nat)
        (prev : List ActionResponse) (m : String),
        e.apiKey ≠ "" → n ≤ maxAttempts.getD 10 → e.reply n = .notOk m →
        getChatResponseInternal e message n maxAttempts prev =
          (⟨"", some (if m = "" then "Failed to get AI response" else m)⟩,
            [.roundStart n])) ∧
      ∀ (e : ExecEnv) (message : String) (n : Nat) (maxAttempts : Option Nat)
        (prev : List ActionResponse) (m : String),
        e.apiKey ≠ "" → n ≤ maxAttempts.getD 10 → e.reply n = .badPayload m →
        getChatResponseInternal e message n maxAttempts prev =
          (⟨"", some m⟩, [.roundStart n]) :=
  ⟨fun e message n maxAttempts prev m hkey hn hr =>
      loop_notOk_step e message n maxAttempts prev m hkey (not_lt.mpr hn) hr,
    fun e message n maxAttempts prev m hkey hn hr =>
      loop_badPayload_step e message n maxAttempts prev m hkey (not_lt.mpr hn) hr⟩

/-- The environment of the C7 witness: a malformed completion payload
on every attempt. -/
def c7WitnessEnv : ExecEnv :=
  ⟨"key", 5, fun _ => .badPayload "TypeError: malformed payload", fun _ _ => ⟨true, none, none⟩⟩

/-- Witness for the amended C7 theorem at a concrete environment. -/
theorem c7_api_error_amended_witness :
    getChatResponseInternal c7WitnessEnv "task" 2 (some 5) [] =
      (⟨"", some "TypeError: malformed payload"⟩, [.roundStart 2]) :=
  c7_api_error_amended.2 c7WitnessEnv "task" 2 (some 5) [] "TypeError: malformed payload"
    (by decide) (by decide) rfl

/-- The environment of the C6 witness: a plain-text model reply. -/
def c6Env : ExecEnv :=
  ⟨"key", 4, fun _ => .ok "plain text answer", fun _ _ => ⟨true, none, none⟩⟩

/-- Witness for C6 at a concrete environment: the unparsable body comes
back verbatim after one round. -/
theorem c6_parse_error_plain_text_witness :
    getChatResponseInternal c6Env "task" 1 (some 4) [] =
      (⟨"plain text answer", none⟩, [.roundStart 1]) :=
  c6_parse_error_plain_text c6Env "task" 1 (some 4) [] "plain text answer"
    "Unexpected token in JSON" (by decide) (by decide) rfl rfl

/-- The body of the C1 witness round: the spec's example batch
`[{click_element:{index:1}}, {done:{text:"x"}}, {scroll:{amount:500}}]`.
-/
def c1Content : String :=
  "\x7b\"action\":[\x7b\"click_element\":\x7b\"index\":1\x7d\x7d,\x7b\"done\":\x7b\"text\":\"x\"\x7d\x7d,\x7b\"scroll\":\x7b\"amount\":500\x7d\x7d]\x7d"

/-- The environment of the C1 witness. -/
def c1Env : ExecEnv :=
  ⟨"key", 5, fun _ => .ok c1Content, fun _ _ => ⟨true, some "clicked", none⟩⟩

/-- The prefix before the `done` action of the C1 witness batch. -/
def c1Pre : List Json := [Json.obj [("click_element", Json.obj [("index", Json.num ⟨1, 0⟩)])]]

/-- The `done` action of the C1 witness batch. -/
def c1Done : Json := Json.obj [("done", Json.obj [("text", Json.str "x")])]

/-- The actions after `done` in the C1 witness batch — they must never
execute. -/
def c1Post : List Json := [Json.obj [("scroll", Json.obj [("amount", Json.num ⟨500, 0⟩)])]]

/-- Witness for C1 on the spec's example batch: the click executes, the
loop ends with success on the `done` action, and the trace contains no
event for the trailing scroll action. -/
theorem c1_done_short_circuits_witness :
    getChatResponseInternal c1Env "goal" 1 (some 5) [] =
      (⟨"✔️ Task is completed: x", none⟩,
        [.roundStart 1, .executed (some "click_element") ⟨true, some "clicked", none⟩]) :=
  c1_done_short_circuits c1Env "goal" 1 (some 5) [] c1Content c1Pre c1Done c1Post "x"
    (by decide) (by decide) rfl rfl
    (by
      intro a ha
      have haeq : a = Json.obj [("click_element", Json.obj [("index", Json.num ⟨1, 0⟩)])] := by
        simpa [c1Pre] using ha
      subst haeq
      exact ⟨["click_element"], rfl, by decide⟩)
    ⟨["done"], rfl, rfl⟩ rfl (by decide)

/-- The model body of the C2 witness: one `no_params` action each
round, never `done`. -/
def c2Content : String := "\x7b\"actions\":[\x7b\"no_params\":\x7b\x7d\x7d]\x7d"

/-- The environment of the C2 witness: budget 2. -/
def c2Env : ExecEnv :=
  ⟨"key", 2, fun _ => .ok c2Content, fun _ _ => ⟨true, some "ok", none⟩⟩

/-- Witness for C2 at a concrete environment: exactly rounds 1 and 2
run, then the budget-exhausted result is returned. -/
theorem c2_budget_exhaustion_witness :
    (getChatResponse c2Env "goal").1 =
        ⟨"❌ Failed to complete task after 2 attempts", none⟩ ∧
      roundStartsOf (getChatResponse c2Env "goal").2 = [1, 2] := by
  have h := c2_budget_exhaustion c2Env "goal" (fun _ => c2Content)
    (fun _ => [Json.obj [("no_params", Json.obj [])]]) (by decide) (by decide)
    (fun _ => rfl) (fun _ => rfl)
    (fun _ a ha => by
      have haeq : a = Json.obj [("no_params", Json.obj [])] := by simpa using ha
      subst haeq
      exact ⟨["no_params"], rfl, by decide⟩)
  exact ⟨h.1, h.2⟩
